import Mathlib

/-!
Verification of a Bronze/Silver/Gold vehicle-telemetry batch pipeline.

The pipeline ingests vehicle messages from an HTTP API (api_client),
lands them partitioned by date/hour (bronze_writer), cleans and flags
them (silver_processor), and derives summary reports (gold_reporter,
pipeline_orchestrator).  Rows are embedded as Lean structures; the
DuckDB SQL transformations are embedded as list functions; nullable
columns become Option, SQL DOUBLE becomes ℚ, epoch-milli timestamps
become Int, and fallible stages return Except.
-/

/-- A raw vehicle message as returned by the upstream API (a JSON
object with camelCase state fields), after the ingestion client has
attached `fetch_timestamp`. -/
structure VehicleMessage where
  vin : Option String
  manufacturer : Option String
  year : Option Int
  model : Option String
  latitude : Option ℚ
  longitude : Option ℚ
  timestamp : Int
  velocity : Option ℚ
  frontLeftDoorState : Option String
  wipersState : Option Bool
  gearPosition : Option String
  driverSeatbeltState : Option String
  fetch_timestamp : String
deriving DecidableEq

/-- A Bronze-layer row: the columns selected by `BronzeWriter.write_raw_data`
(state fields renamed to snake_case, lineage and partition columns added).
`partition_date` is embedded as the UTC day index and `partition_hour` as the
UTC hour of day, both derived from the epoch-milli timestamp. -/
structure RawRecord where
  vin : Option String
  manufacturer : Option String
  year : Option Int
  model : Option String
  latitude : Option ℚ
  longitude : Option ℚ
  timestamp : Int
  message_datetime : Int
  velocity : Option ℚ
  front_left_door_state : Option String
  wipers_state : Option Bool
  gear_position : Option String
  driver_seatbelt_state : Option String
  fetch_timestamp : String
  ingestion_timestamp : String
  batch_id : String
  partition_date : Int
  partition_hour : Int
deriving DecidableEq

/-- A Silver-layer row: the columns produced by the `cleaned_data` CTE of
`SilverProcessor.process_to_silver`. -/
structure CleanedRecord where
  vin : Option String
  manufacturer : Option String
  year : Option Int
  model : Option String
  latitude : Option ℚ
  longitude : Option ℚ
  timestamp : Int
  message_datetime : Int
  velocity : Option ℚ
  front_left_door_state : Option String
  wipers_state : Option Bool
  gear_position_numeric : Option Int
  gear_position_original : Option String
  driver_seatbelt_state : Option String
  fetch_timestamp : String
  ingestion_timestamp : String
  batch_id : String
  partition_date : Int
  partition_hour : Int
  has_valid_coordinates : Bool
  has_valid_velocity : Bool
  silver_processing_timestamp : String
deriving DecidableEq

/-- The `has_valid_coordinates` CASE expression of the Silver SQL:
latitude and longitude both non-null and within [-90,90] and [-180,180]. -/
def has_valid_coordinates_of (la lo : Option ℚ) : Bool :=
  match la, lo with
  | some a, some o =>
      decide (-90 ≤ a) && decide (a ≤ 90) && decide (-180 ≤ o) && decide (o ≤ 180)
  | _, _ => false

/-- The `has_valid_velocity` CASE expression of the Silver SQL:
velocity non-null and within [0,500]. -/
def has_valid_velocity_of (v : Option ℚ) : Bool :=
  match v with
  | some x => decide (0 ≤ x) && decide (x ≤ 500)
  | none => false

/-- The `gear_position_numeric` CASE expression of the Silver SQL. -/
def gear_position_numeric_of (g : Option String) : Option Int :=
  match g with
  | some s => if s = "NEUTRAL" then some 0 else if s = "REVERSE" then some (-1) else none
  | none => none

/-- The per-row projection of the `cleaned_data` CTE in
`SilverProcessor.process_to_silver`:  manufacturer trimmed, gear position
normalised, validity flags computed, all other columns passed through. -/
def cleanRow (ts : String) (r : RawRecord) : CleanedRecord :=
  { vin := r.vin
    manufacturer := r.manufacturer.map String.trim
    year := r.year
    model := r.model
    latitude := r.latitude
    longitude := r.longitude
    timestamp := r.timestamp
    message_datetime := r.message_datetime
    velocity := r.velocity
    front_left_door_state := r.front_left_door_state
    wipers_state := r.wipers_state
    gear_position_numeric := gear_position_numeric_of r.gear_position
    gear_position_original := r.gear_position
    driver_seatbelt_state := r.driver_seatbelt_state
    fetch_timestamp := r.fetch_timestamp
    ingestion_timestamp := r.ingestion_timestamp
    batch_id := r.batch_id
    partition_date := r.partition_date
    partition_hour := r.partition_hour
    has_valid_coordinates := has_valid_coordinates_of r.latitude r.longitude
    has_valid_velocity := has_valid_velocity_of r.velocity
    silver_processing_timestamp := ts }

/-- The VIN filter `vin IS NOT NULL AND TRIM(vin) <> ''` of the Silver SQL. -/
def goodVin (v : Option String) : Bool :=
  match v with
  | some s => s.trim != ""
  | none => false

/-- Descending order on `message_datetime`, the `ORDER BY message_datetime
DESC` of the Silver output. -/
def mdDesc (a b : CleanedRecord) : Prop :=
  b.message_datetime ≤ a.message_datetime

instance : DecidableRel mdDesc :=
  fun a b => inferInstanceAs (Decidable (b.message_datetime ≤ a.message_datetime))

/-- The rows written by the Silver stage: every Bronze row cleaned, rows
with null or blank vin filtered out, sorted by message time descending. -/
def silverRows (ts : String) (raws : List RawRecord) : List CleanedRecord :=
  List.insertionSort mdDesc ((raws.map (cleanRow ts)).filter (fun c => goodVin c.vin))

/-- `SilverProcessor.process_to_silver`: raises (here: returns an error and
hence no output rows) when the Bronze area holds zero records, otherwise
produces the cleaned snapshot. -/
def process_to_silver (ts : String) (raws : List RawRecord) : Except String (List CleanedRecord) :=
  if raws.isEmpty then Except.error "No data found in Bronze layer"
  else Except.ok (silverRows ts raws)

/-- `BronzeWriter.write_raw_data` applied to the bronze `vehicle_messages`
directory, whose content is embedded as the list of records it holds: rejects
an empty input list before touching the directory, otherwise replaces the
directory content with the freshly derived records.  The returned pair is
(result, directory content after the call). -/
def toRawRecord (ingestTs batchId : String) (m : VehicleMessage) : RawRecord :=
  { vin := m.vin
    manufacturer := m.manufacturer
    year := m.year
    model := m.model
    latitude := m.latitude
    longitude := m.longitude
    timestamp := m.timestamp
    message_datetime := m.timestamp
    velocity := m.velocity
    front_left_door_state := m.frontLeftDoorState
    wipers_state := m.wipersState
    gear_position := m.gearPosition
    driver_seatbelt_state := m.driverSeatbeltState
    fetch_timestamp := m.fetch_timestamp
    ingestion_timestamp := ingestTs
    batch_id := batchId
    partition_date := m.timestamp.ediv 86400000
    partition_hour := (m.timestamp.ediv 3600000).emod 24 }

/-- State-passing embedding of `BronzeWriter.write_raw_data`: the empty-input
check happens before the destructive cleanup of the directory. -/
def write_raw_data (ingestTs batchId : String) (data : List VehicleMessage)
    (bronzeDir : List RawRecord) : Except String String × List RawRecord :=
  if data.isEmpty then (Except.error "No data provided to write", bronzeDir)
  else (Except.ok "vehicle_messages", data.map (toRawRecord ingestTs batchId))

/-- C4: the Silver transform fails with the empty-input error when zero raw
records are found in the Bronze area, and then produces no Silver output. -/
theorem silver_empty_input_aborts (ts : String) (raws : List RawRecord) (h : raws = []) :
    process_to_silver ts raws = Except.error "No data found in Bronze layer" ∧
      ∀ out : List CleanedRecord, process_to_silver ts raws ≠ Except.ok out := by
  subst h
  refine ⟨rfl, ?_⟩
  intro out hc
  simp [process_to_silver] at hc

/-- Witness for C4 at the concrete empty input. -/
theorem silver_empty_input_aborts_witness :
    ([] : List RawRecord) = [] ∧
      (process_to_silver "t" [] = Except.error "No data found in Bronze layer" ∧
        ∀ out : List CleanedRecord, process_to_silver "t" [] ≠ Except.ok out) :=
  ⟨rfl, silver_empty_input_aborts "t" [] rfl⟩

/-- C5: the cleaned row's `has_valid_velocity` flag is true iff velocity is
non-null and within [0,500], bounds inclusive; 0 and 500 are valid while
500.0001 and -0.0001 are invalid. -/
theorem velocity_flag_correct (ts : String) (r : RawRecord) :
    ((cleanRow ts r).has_valid_velocity = true ↔
        ∃ x : ℚ, r.velocity = some x ∧ 0 ≤ x ∧ x ≤ 500) ∧
      has_valid_velocity_of (some 0) = true ∧
      has_valid_velocity_of (some 500) = true ∧
      has_valid_velocity_of (some (5000001 / 10000)) = false ∧
      has_valid_velocity_of (some (-1 / 10000)) = false := by
  refine ⟨?_, by decide, by decide, by norm_num [has_valid_velocity_of],
    by norm_num [has_valid_velocity_of]⟩
  show has_valid_velocity_of r.velocity = true ↔ _
  cases hv : r.velocity with
  | none => simp [has_valid_velocity_of]
  | some x => simp [has_valid_velocity_of]

/-- C10: `write_raw_data` on an empty data list errors out with the
pre-existing Bronze content untouched; the destructive replacement of the
`vehicle_messages` directory happens only for non-empty input. -/
theorem bronze_empty_input_preserves_dir (ts bid : String) (dir : List RawRecord) :
    write_raw_data ts bid [] dir = (Except.error "No data provided to write", dir) ∧
      ∀ (m : VehicleMessage) (ms : List VehicleMessage),
        (write_raw_data ts bid (m :: ms) dir).2 = (m :: ms).map (toRawRecord ts bid) := by
  exact ⟨rfl, fun m ms => rfl⟩

/-- The vin column is passed through unchanged by the cleaning projection. -/
theorem cleanRow_vin (ts : String) (r : RawRecord) : (cleanRow ts r).vin = r.vin := rfl

/-- C6: the cleaned row's `has_valid_coordinates` flag is true iff latitude
and longitude are both non-null and within [-90,90] and [-180,180] inclusive;
rows failing the check (such as latitude 90.5) are still retained by the
cleaning stage whenever their vin passes the vin filter. -/
theorem coordinates_flag_and_retention (ts : String) (r : RawRecord) :
    ((cleanRow ts r).has_valid_coordinates = true ↔
        ∃ la lo : ℚ, r.latitude = some la ∧ r.longitude = some lo ∧
          -90 ≤ la ∧ la ≤ 90 ∧ -180 ≤ lo ∧ lo ≤ 180) ∧
      has_valid_coordinates_of (some 90) (some 180) = true ∧
      has_valid_coordinates_of (some (-90)) (some (-180)) = true ∧
      has_valid_coordinates_of (some (181 / 2)) (some 0) = false ∧
      (∀ raws : List RawRecord, r ∈ raws → goodVin r.vin = true →
        cleanRow ts r ∈ silverRows ts raws) := by
  refine ⟨?_, by decide, by decide, by norm_num [has_valid_coordinates_of], ?_⟩
  · show has_valid_coordinates_of r.latitude r.longitude = true ↔ _
    cases hla : r.latitude with
    | none => simp [has_valid_coordinates_of]
    | some a =>
      cases hlo : r.longitude with
      | none => simp [has_valid_coordinates_of]
      | some o =>
        simp only [has_valid_coordinates_of, Bool.and_eq_true, decide_eq_true_eq,
          Option.some.injEq]
        constructor
        · rintro ⟨⟨⟨h1, h2⟩, h3⟩, h4⟩
          exact ⟨a, o, rfl, rfl, h1, h2, h3, h4⟩
        · rintro ⟨la, lo, hla2, hlo2, h1, h2, h3, h4⟩
          cases hla2
          cases hlo2
          exact ⟨⟨⟨h1, h2⟩, h3⟩, h4⟩
  · intro raws hra hv
    rw [silverRows, List.mem_insertionSort]
    exact List.mem_filter.2 ⟨List.mem_map_of_mem _ hra, hv⟩

/-- C3: every row of a produced Silver snapshot has a non-null, non-blank
(after trim) vin, and rows with a null or blank vin are dropped: the output
row count equals the count of input rows passing the vin filter. -/
theorem silver_vin_invariant (ts : String) (raws : List RawRecord)
    (out : List CleanedRecord) (h : process_to_silver ts raws = Except.ok out) :
    (∀ r ∈ out, ∃ v, r.vin = some v ∧ v.trim ≠ "") ∧
      out.length = (raws.filter (fun r => goodVin r.vin)).length := by
  have hout : out = silverRows ts raws := by
    unfold process_to_silver at h
    split at h
    · exact absurd h (by simp)
    · exact (Except.ok.injEq _ _ ▸ h).symm
  subst hout
  constructor
  · intro r hr
    rw [silverRows, List.mem_insertionSort] at hr
    have hg : goodVin r.vin = true := (List.mem_filter.1 hr).2
    cases hv : r.vin with
    | none => rw [hv] at hg; exact absurd hg (by simp [goodVin])
    | some v =>
      rw [hv] at hg
      exact ⟨v, rfl, by simpa [goodVin, bne_iff_ne] using hg⟩
  · rw [silverRows, List.length_insertionSort, List.filter_map, List.length_map]
    rfl

/-- The row selected by `ROW_NUMBER() OVER (PARTITION BY vin ORDER BY
message_datetime DESC) = 1` and by `FIRST_VALUE(..) OVER (.. ORDER BY
message_datetime DESC)`: the row of the partition with the maximal
`message_datetime`.  The engine's tie order is unspecified; the embedding
deterministically keeps the earliest such row of the file. -/
def pickLatest : List CleanedRecord → Option CleanedRecord
  | [] => none
  | r :: rs =>
    match pickLatest rs with
    | none => some r
    | some b => if r.message_datetime < b.message_datetime then some b else some r

/-- The distinct vins of a list of rows, nulls skipped. -/
def distinctVinsOf (l : List CleanedRecord) : List String :=
  (l.filterMap (fun r => r.vin)).dedup

/-- The rows of one vin's partition. -/
def vinRowsOf (v : String) (l : List CleanedRecord) : List CleanedRecord :=
  l.filter (fun r => decide (r.vin = some v))

/-- The `WHERE vin IS NOT NULL` filter of the `latest_messages` CTE. -/
def vinBase (l : List CleanedRecord) : List CleanedRecord :=
  l.filter (fun r => r.vin.isSome)

/-- The `WHERE vin IS NOT NULL AND front_left_door_state IS NOT NULL`
filter of the `last_door_state` CTE. -/
def doorBase (l : List CleanedRecord) : List CleanedRecord :=
  l.filter (fun r => r.vin.isSome && r.front_left_door_state.isSome)

/-- The `WHERE vin IS NOT NULL AND wipers_state IS NOT NULL` filter of the
`last_wipers_state` CTE. -/
def wipersBase (l : List CleanedRecord) : List CleanedRecord :=
  l.filter (fun r => r.vin.isSome && r.wipers_state.isSome)

/-- One vin's rows with a non-null door state. -/
def doorRowsOf (v : String) (l : List CleanedRecord) : List CleanedRecord :=
  l.filter (fun r => decide (r.vin = some v) && r.front_left_door_state.isSome)

/-- One vin's rows with a non-null wipers state. -/
def wipersRowsOf (v : String) (l : List CleanedRecord) : List CleanedRecord :=
  l.filter (fun r => decide (r.vin = some v) && r.wipers_state.isSome)

/-- The rank-1 row of a vin in the `latest_messages` CTE. -/
def baseRowAt (l : List CleanedRecord) (v : String) : Option CleanedRecord :=
  pickLatest ((vinBase l).filter (fun r => decide (r.vin = some v)))

/-- The `last_front_left_door_state` value computed for a vin by the
`last_door_state` CTE. -/
def doorValAt (l : List CleanedRecord) (v : String) : Option String :=
  (pickLatest ((doorBase l).filter (fun r => decide (r.vin = some v)))).bind
    (fun m => m.front_left_door_state)

/-- The `last_wipers_state` value computed for a vin by the
`last_wipers_state` CTE. -/
def wipersValAt (l : List CleanedRecord) (v : String) : Option Bool :=
  (pickLatest ((wipersBase l).filter (fun r => decide (r.vin = some v)))).bind
    (fun m => m.wipers_state)

/-- The `last_door_state` CTE as a (vin, value) relation: one row per
distinct vin occurring with a non-null door state. -/
def last_door_state (l : List CleanedRecord) : List (String × String) :=
  (distinctVinsOf (doorBase l)).filterMap
    (fun u => (doorValAt l u).map (fun x => (u, x)))

/-- The `last_wipers_state` CTE as a (vin, value) relation. -/
def last_wipers_state (l : List CleanedRecord) : List (String × Bool) :=
  (distinctVinsOf (wipersBase l)).filterMap
    (fun u => (wipersValAt l u).map (fun x => (u, x)))

/-- An output row of the VIN last state report. -/
structure VinLastStateRow where
  vin : String
  last_reported_timestamp : Int
  last_message_datetime : Int
  manufacturer : Option String
  year : Option Int
  model : Option String
  last_latitude : Option ℚ
  last_longitude : Option ℚ
  last_velocity : Option ℚ
  last_front_left_door_state : Option String
  last_wipers_state : Option Bool
  report_generated_timestamp : String
deriving DecidableEq

/-- The final SELECT of the report: rank-1 base fields of a vin, left-joined
with the per-field latest non-null door and wipers values. -/
def mkReportRow (ts : String) (lds : List (String × String)) (lws : List (String × Bool))
    (v : String) (b : CleanedRecord) : VinLastStateRow :=
  { vin := v
    last_reported_timestamp := b.timestamp
    last_message_datetime := b.message_datetime
    manufacturer := b.manufacturer
    year := b.year
    model := b.model
    last_latitude := b.latitude
    last_longitude := b.longitude
    last_velocity := b.velocity
    last_front_left_door_state := lds.lookup v
    last_wipers_state := lws.lookup v
    report_generated_timestamp := ts }

/-- Descending order on the report's `last_message_datetime`, the
`ORDER BY lm.message_datetime DESC` of the report. -/
def repDesc (a b : VinLastStateRow) : Prop :=
  b.last_message_datetime ≤ a.last_message_datetime

instance : DecidableRel repDesc :=
  fun a b => inferInstanceAs (Decidable (b.last_message_datetime ≤ a.last_message_datetime))

/-- `GoldReporter.generate_vin_last_state_report` over the rows of the Silver
snapshot. -/
def generate_vin_last_state_report (ts : String) (l : List CleanedRecord) :
    List VinLastStateRow :=
  List.insertionSort repDesc
    ((distinctVinsOf (vinBase l)).filterMap
      (fun v => (baseRowAt l v).map
        (mkReportRow ts (last_door_state l) (last_wipers_state l) v)))

/-- `pickLatest` of a non-empty partition exists. -/
theorem pickLatest_isSome (l : List CleanedRecord) (h : l ≠ []) :
    (pickLatest l).isSome = true := by
  cases l with
  | nil => exact absurd rfl h
  | cons r rs =>
    cases hp : pickLatest rs with
    | none => simp [pickLatest, hp]
    | some b =>
      simp only [pickLatest, hp]
      split <;> rfl

/-- `pickLatest` returns a row of the partition. -/
theorem pickLatest_mem {l : List CleanedRecord} {b : CleanedRecord}
    (h : pickLatest l = some b) : b ∈ l := by
  induction l with
  | nil => exact absurd h (by simp [pickLatest])
  | cons r rs ih =>
    cases hp : pickLatest rs with
    | none =>
      simp only [pickLatest, hp, Option.some.injEq] at h
      exact h ▸ List.mem_cons_self r rs
    | some bb =>
      simp only [pickLatest, hp] at h
      by_cases hc : r.message_datetime < bb.message_datetime
      · rw [if_pos hc, Option.some.injEq] at h
        exact List.mem_cons_of_mem r (ih (h ▸ hp))
      · rw [if_neg hc, Option.some.injEq] at h
        exact h ▸ List.mem_cons_self r rs

/-- If a row strictly dominates every other row of the partition in
`message_datetime`, `pickLatest` picks it. -/
theorem pickLatest_of_strictmax {l : List CleanedRecord} {m : CleanedRecord}
    (hm : m ∈ l)
    (hmax : ∀ r ∈ l, r = m ∨ r.message_datetime < m.message_datetime) :
    pickLatest l = some m := by
  induction l with
  | nil => exact absurd hm (List.not_mem_nil m)
  | cons r rs ih =>
    rcases List.mem_cons.1 hm with hrm | hmem
    · subst hrm
      cases hp : pickLatest rs with
      | none => simp [pickLatest, hp]
      | some b =>
        simp only [pickLatest, hp]
        rcases hmax b (List.mem_cons_of_mem _ (pickLatest_mem hp)) with hone | hlt
        · subst hone
          rw [if_neg (lt_irrefl _)]
        · rw [if_neg (not_lt.2 (le_of_lt hlt))]
    · have hp : pickLatest rs = some m :=
        ih hmem (fun r2 hr2 => hmax r2 (List.mem_cons_of_mem _ hr2))
      simp only [pickLatest, hp]
      rcases hmax r (List.mem_cons_self r rs) with hone | hlt
      · subst hone
        rw [if_neg (lt_irrefl _)]
      · rw [if_pos hlt]

/-- Looking up a key in a relation built by `filterMap` over a key list
yields the generating function's value at that key. -/
theorem lookup_filterMap_pairs {β : Type} (g : String → Option β) (v : String) (b : β)
    (hg : g v = some b) (vs : List String) (hv : v ∈ vs) :
    List.lookup v (vs.filterMap (fun u => (g u).map (fun x => (u, x)))) = some b := by
  induction vs with
  | nil => exact absurd hv (List.not_mem_nil v)
  | cons u t ih =>
    by_cases huv : u = v
    · subst huv
      simp [List.filterMap_cons, hg, List.lookup]
    · have hvt : v ∈ t := by
        rcases List.mem_cons.1 hv with h1 | h2
        · exact absurd h1.symm huv
        · exact h2
      have hb : (v == u) = false := beq_eq_false_iff_ne.2 (fun hc => huv hc.symm)
      cases hgu : g u with
      | none => simpa [List.filterMap_cons, hgu] using ih hvt
      | some x =>
        simp only [List.filterMap_cons, hgu, Option.map_some']
        rw [List.lookup, hb]
        exact ih hvt

/-- Filtering on non-null vin does not change the multiset of vins. -/
theorem filterMap_vin_vinBase (l : List CleanedRecord) :
    (vinBase l).filterMap (fun r => r.vin) = l.filterMap (fun r => r.vin) := by
  unfold vinBase
  induction l with
  | nil => rfl
  | cons r t ih =>
    cases hv : r.vin <;> simp [List.filter_cons, List.filterMap_cons, hv, ih]

/-- Restricting the vin-non-null rows to one vin gives the vin's partition. -/
theorem vinBase_filter_eq (v : String) (l : List CleanedRecord) :
    (vinBase l).filter (fun r => decide (r.vin = some v)) = vinRowsOf v l := by
  rw [vinBase, List.filter_filter, vinRowsOf]
  apply List.filter_congr
  intro r _
  cases hv : r.vin <;> simp [hv]

/-- Restricting the door-CTE rows to one vin gives the vin's non-null-door
partition. -/
theorem doorBase_filter_eq (v : String) (l : List CleanedRecord) :
    (doorBase l).filter (fun r => decide (r.vin = some v)) = doorRowsOf v l := by
  rw [doorBase, List.filter_filter, doorRowsOf]
  apply List.filter_congr
  intro r _
  cases hv : r.vin <;> simp [hv]

/-- Restricting the wipers-CTE rows to one vin gives the vin's
non-null-wipers partition. -/
theorem wipersBase_filter_eq (v : String) (l : List CleanedRecord) :
    (wipersBase l).filter (fun r => decide (r.vin = some v)) = wipersRowsOf v l := by
  rw [wipersBase, List.filter_filter, wipersRowsOf]
  apply List.filter_congr
  intro r _
  cases hv : r.vin <;> simp [hv]

/-- A row with a vin puts that vin among the distinct vins. -/
theorem mem_distinctVinsOf {r : CleanedRecord} {l : List CleanedRecord} {v : String}
    (hr : r ∈ l) (hv : r.vin = some v) : v ∈ distinctVinsOf l := by
  rw [distinctVinsOf, List.mem_dedup]
  exact List.mem_filterMap.2 ⟨r, hr, hv⟩

/-- Mapping the vin projection over report rows built per distinct vin
recovers the vin list. -/
theorem map_vin_filterMap (vs : List String) (f : String → Option VinLastStateRow)
    (hall : ∀ v ∈ vs, ∃ row, f v = some row ∧ row.vin = v) :
    (vs.filterMap f).map (fun row => row.vin) = vs := by
  induction vs with
  | nil => rfl
  | cons u t ih =>
    obtain ⟨row, hf, hvin⟩ := hall u (List.mem_cons_self u t)
    simp only [List.filterMap_cons, hf, List.map_cons, hvin]
    rw [ih (fun v hv => hall v (List.mem_cons_of_mem u hv))]

/-- Every distinct vin has a rank-1 base row. -/
theorem baseRowAt_isSome {l : List CleanedRecord} {v : String}
    (hv : v ∈ distinctVinsOf (vinBase l)) : ∃ b, baseRowAt l v = some b := by
  rw [distinctVinsOf, List.mem_dedup] at hv
  obtain ⟨r, hr, hrv⟩ := List.mem_filterMap.1 hv
  have hmem : r ∈ (vinBase l).filter (fun r2 => decide (r2.vin = some v)) :=
    List.mem_filter.2 ⟨hr, by simp [hrv]⟩
  have hsome := pickLatest_isSome _ (List.ne_nil_of_mem hmem)
  obtain ⟨b, hb⟩ := Option.isSome_iff_exists.1 hsome
  exact ⟨b, hb⟩

/-- C7: the VinLastState report holds exactly one row per distinct non-null
vin of the cleaned input: its vins are pairwise distinct, they are exactly
the non-null vins of the input, and the row count equals the number of
distinct non-null input vins. -/
theorem vin_report_one_row_per_vin (ts : String) (l : List CleanedRecord) :
    ((generate_vin_last_state_report ts l).map (fun row => row.vin)).Nodup ∧
      (∀ v : String,
        v ∈ (generate_vin_last_state_report ts l).map (fun row => row.vin) ↔
          v ∈ l.filterMap (fun r => r.vin)) ∧
      (generate_vin_last_state_report ts l).length =
        (l.filterMap (fun r => r.vin)).dedup.length := by
  have hall : ∀ v ∈ distinctVinsOf (vinBase l),
      ∃ row, ((baseRowAt l v).map
        (mkReportRow ts (last_door_state l) (last_wipers_state l) v)) = some row ∧
        row.vin = v := by
    intro v hv
    obtain ⟨b, hb⟩ := baseRowAt_isSome hv
    exact ⟨mkReportRow ts (last_door_state l) (last_wipers_state l) v b,
      by rw [hb]; rfl, rfl⟩
  have hmap : (((distinctVinsOf (vinBase l)).filterMap
      (fun v => (baseRowAt l v).map
        (mkReportRow ts (last_door_state l) (last_wipers_state l) v))).map
      (fun row => row.vin)) = distinctVinsOf (vinBase l) :=
    map_vin_filterMap _ _ hall
  have h1 : ((generate_vin_last_state_report ts l).map (fun row => row.vin)).Perm
      (distinctVinsOf (vinBase l)) := by
    rw [generate_vin_last_state_report]
    have hp := (List.perm_insertionSort repDesc
      ((distinctVinsOf (vinBase l)).filterMap
        (fun v => (baseRowAt l v).map
          (mkReportRow ts (last_door_state l) (last_wipers_state l) v)))).map
      (fun row => row.vin)
    rwa [hmap] at hp
  refine ⟨h1.nodup_iff.2 (List.nodup_dedup _), ?_, ?_⟩
  · intro v
    rw [h1.mem_iff, distinctVinsOf, List.mem_dedup, filterMap_vin_vinBase]
  · have h2 : (generate_vin_last_state_report ts l).length =
        ((generate_vin_last_state_report ts l).map (fun row => row.vin)).length :=
      (List.length_map _ _).symm
    rw [h2, h1.length_eq, distinctVinsOf, filterMap_vin_vinBase]

/-- C1: in the VinLastState report, `last_front_left_door_state` is resolved
independently of the globally-latest base row: given the vin's strictly
latest row `b` (supplying `last_message_datetime` and
`last_reported_timestamp`) and the vin's strictly latest row `m` among rows
with a non-null door state, the report row carries the door value of `m`,
and analogously the wipers value of the latest row with a non-null wipers
state. -/
theorem door_wipers_independent_resolution
    (ts : String) (l : List CleanedRecord) (v d : String) (b m : CleanedRecord)
    (hb : b ∈ l) (hbv : b.vin = some v)
    (hbmax : ∀ r ∈ l, r.vin = some v → r = b ∨ r.message_datetime < b.message_datetime)
    (hm : m ∈ l) (hmv : m.vin = some v) (hmd : m.front_left_door_state = some d)
    (hmmax : ∀ r ∈ l, r.vin = some v → r.front_left_door_state.isSome = true →
      r = m ∨ r.message_datetime < m.message_datetime) :
    ∃ out ∈ generate_vin_last_state_report ts l,
      out.vin = v ∧
      out.last_message_datetime = b.message_datetime ∧
      out.last_reported_timestamp = b.timestamp ∧
      out.last_front_left_door_state = some d ∧
      (∀ (w : CleanedRecord) (ww : Bool), w ∈ l → w.vin = some v →
        w.wipers_state = some ww →
        (∀ r ∈ l, r.vin = some v → r.wipers_state.isSome = true →
          r = w ∨ r.message_datetime < w.message_datetime) →
        out.last_wipers_state = some ww) := by
  have hbase : baseRowAt l v = some b := by
    rw [baseRowAt, vinBase_filter_eq]
    apply pickLatest_of_strictmax
    · exact List.mem_filter.2 ⟨hb, by simp [hbv]⟩
    · intro r hr
      have hr2 := List.mem_filter.1 hr
      exact hbmax r hr2.1 (of_decide_eq_true hr2.2)
  have hdoorval : doorValAt l v = some d := by
    rw [doorValAt, doorBase_filter_eq]
    have hpick : pickLatest (doorRowsOf v l) = some m := by
      apply pickLatest_of_strictmax
      · exact List.mem_filter.2 ⟨hm, by simp [hmv, hmd]⟩
      · intro r hr
        have hr2 := List.mem_filter.1 hr
        have hr3 := Bool.and_eq_true_iff.1 hr2.2
        exact hmmax r hr2.1 (of_decide_eq_true hr3.1) hr3.2
    rw [hpick]
    exact hmd
  have hvmemd : v ∈ distinctVinsOf (doorBase l) :=
    mem_distinctVinsOf (List.mem_filter.2 ⟨hm, by simp [hmv, hmd]⟩) hmv
  have hlookupd : List.lookup v (last_door_state l) = some d :=
    lookup_filterMap_pairs (doorValAt l) v d hdoorval _ hvmemd
  have hvmemb : v ∈ distinctVinsOf (vinBase l) :=
    mem_distinctVinsOf (List.mem_filter.2 ⟨hb, by simp [hbv]⟩) hbv
  refine ⟨mkReportRow ts (last_door_state l) (last_wipers_state l) v b, ?_, rfl, rfl, rfl,
    hlookupd, ?_⟩
  · rw [generate_vin_last_state_report, List.mem_insertionSort]
    exact List.mem_filterMap.2 ⟨v, hvmemb, by rw [hbase]; rfl⟩
  · intro w ww hw hwv hws hwmax
    have hwipval : wipersValAt l v = some ww := by
      rw [wipersValAt, wipersBase_filter_eq]
      have hpick : pickLatest (wipersRowsOf v l) = some w := by
        apply pickLatest_of_strictmax
        · exact List.mem_filter.2 ⟨hw, by simp [hwv, hws]⟩
        · intro r hr
          have hr2 := List.mem_filter.1 hr
          have hr3 := Bool.and_eq_true_iff.1 hr2.2
          exact hwmax r hr2.1 (of_decide_eq_true hr3.1) hr3.2
      rw [hpick]
      exact hws
    have hvmemw : v ∈ distinctVinsOf (wipersBase l) :=
      mem_distinctVinsOf (List.mem_filter.2 ⟨hw, by simp [hwv, hws]⟩) hwv
    exact lookup_filterMap_pairs (wipersValAt l) v ww hwipval _ hvmemw

/-- Velocity key used by the top-K ranking: rows are pre-filtered to non-null
velocity, so the default for `none` is never reached. -/
def velKey (r : CleanedRecord) : ℚ :=
  r.velocity.getD 0

/-- Descending order on velocity. -/
def velDesc (a b : CleanedRecord) : Prop :=
  velKey b ≤ velKey a

instance : DecidableRel velDesc :=
  fun a b => inferInstanceAs (Decidable (velKey b ≤ velKey a))

instance : IsTotal CleanedRecord velDesc :=
  ⟨fun a b => le_total (velKey b) (velKey a)⟩

instance : IsTrans CleanedRecord velDesc :=
  ⟨fun _ _ _ hab hbc => le_trans hbc hab⟩

/-- The (calendar date, hour-of-day) bucket of a row, derived from its
epoch-milli `message_datetime`: UTC day index and UTC hour of day. -/
def bucketKey (r : CleanedRecord) : Int × Int :=
  (r.message_datetime.ediv 86400000, (r.message_datetime.ediv 3600000).emod 24)

/-- The rows eligible for the top-K ranking: non-null velocity only. -/
def velRows (rows : List CleanedRecord) : List CleanedRecord :=
  rows.filter (fun r => r.velocity.isSome)

/-- The distinct (date, hour) buckets among the eligible rows. -/
def hourBuckets (rows : List CleanedRecord) : List (Int × Int) :=
  ((velRows rows).map bucketKey).dedup

/-- The eligible rows of one bucket. -/
def bucketRows (rows : List CleanedRecord) (b : Int × Int) : List CleanedRecord :=
  (velRows rows).filter (fun r => decide (bucketKey r = b))

/-- The top 10 rows by velocity descending of one bucket. -/
def bucketTop10 (rows : List CleanedRecord) (b : Int × Int) : List CleanedRecord :=
  (List.insertionSort velDesc (bucketRows rows b)).take 10

/-- Modelled from the spec: `GoldReporter.fastest_vehicles_per_hour_report`
is invoked by the orchestrator but its definition is not part of the
`GoldReporter` source; embedded from the spec contract: for each (calendar
date, hour-of-day) bucket derived from `message_datetime`, emit the top 10
records by velocity descending, considering only rows with non-null
velocity. -/
def fastest_vehicles_per_hour_report (rows : List CleanedRecord) : List CleanedRecord :=
  (hourBuckets rows).flatMap (bucketTop10 rows)

/-- A bind whose chunks have at most 10 elements has length at most 10 times
the number of chunks. -/
theorem length_bind_le_ten {K : Type} (bs : List K) (f : K → List CleanedRecord)
    (h : ∀ b, (f b).length ≤ 10) : (bs.flatMap f).length ≤ 10 * bs.length := by
  induction bs with
  | nil => simp
  | cons b t ih =>
    rw [List.flatMap_cons, List.length_append, List.length_cons]
    have h1 := h b
    omega

/-- The buckets of the velocity-filtered rows are among the buckets of the
whole input. -/
theorem hourBuckets_length_le (rows : List CleanedRecord) :
    (hourBuckets rows).length ≤ ((rows.map bucketKey).dedup).length := by
  apply List.Subperm.length_le
  apply List.subperm_of_subset (List.nodup_dedup _)
  intro x hx
  rw [List.mem_dedup] at hx
  rw [List.mem_dedup]
  obtain ⟨r, hr, hrk⟩ := List.mem_map.1 hx
  exact List.mem_map.2 ⟨r, (List.mem_filter.1 hr).1, hrk⟩

/-- C2: the fastest-per-hour report emits, per (date, hour) bucket, the top
10 eligible rows by velocity descending: each bucket's chunk is a descending
prefix of length min 10 (bucket size) of a sorted permutation of the
bucket's non-null-velocity rows, every reported row is an input row with
non-null velocity, and the total output size is at most 10 times the number
of distinct buckets present in the input. -/
theorem fastest_per_hour_top10 (rows : List CleanedRecord) :
    (fastest_vehicles_per_hour_report rows).length ≤
        10 * ((rows.map bucketKey).dedup).length ∧
      (∀ b ∈ hourBuckets rows, ∃ p : List CleanedRecord,
        p.Perm (bucketRows rows b) ∧ List.Sorted velDesc p ∧
        bucketTop10 rows b = p.take 10 ∧
        (bucketTop10 rows b).length = min 10 (bucketRows rows b).length) ∧
      (∀ r ∈ fastest_vehicles_per_hour_report rows,
        r.velocity.isSome = true ∧ r ∈ rows) := by
  refine ⟨?_, ?_, ?_⟩
  · calc (fastest_vehicles_per_hour_report rows).length
        ≤ 10 * (hourBuckets rows).length := by
          apply length_bind_le_ten
          intro b
          rw [bucketTop10, List.length_take]
          exact min_le_left _ _
      _ ≤ 10 * ((rows.map bucketKey).dedup).length :=
          Nat.mul_le_mul_left _ (hourBuckets_length_le rows)
  · intro b _
    exact ⟨List.insertionSort velDesc (bucketRows rows b),
      List.perm_insertionSort _ _, List.sorted_insertionSort _ _, rfl,
      by rw [bucketTop10, List.length_take, List.length_insertionSort]⟩
  · intro r hr
    obtain ⟨b, _, hrb⟩ := List.mem_flatMap.1 hr
    have hr2 : r ∈ List.insertionSort velDesc (bucketRows rows b) :=
      (List.take_sublist _ _).subset hrb
    rw [List.mem_insertionSort] at hr2
    have hr3 := List.mem_filter.1 hr2
    have hr4 := List.mem_filter.1 hr3.1
    exact ⟨hr4.2, hr4.1⟩

/-- The result record returned by `PipelineOrchestrator.run_gold_stage`:
status, the three per-report entries of `reports_generated`, and the error
message on failure. -/
structure GoldStageResult where
  status : String
  vin_last_state : Option String
  velocity_analysis : Option String
  sql_injection_report : Option String
  error : Option String
deriving DecidableEq

/-- Control flow of `PipelineOrchestrator.run_gold_stage` (the Gold stage of
`run_full_pipeline` has the same shape), with the three report computations
abstracted by their outcomes: the vin-last-state and fastest-per-hour
reports run directly under the stage-level exception handler, so an
exception from either fails the stage; the pattern-scan report runs under
its own inner handler that logs a warning and leaves the report `None`. -/
def run_gold_stage (vinR velR dqR : Except String String) : GoldStageResult :=
  match vinR with
  | Except.error e =>
    { status := "failed", vin_last_state := none, velocity_analysis := none,
      sql_injection_report := none, error := some e }
  | Except.ok vp =>
    match velR with
    | Except.error e =>
      { status := "failed", vin_last_state := none, velocity_analysis := none,
        sql_injection_report := none, error := some e }
    | Except.ok lp =>
      { status := "success", vin_last_state := some vp, velocity_analysis := some lp,
        sql_injection_report :=
          match dqR with
          | Except.ok p => some p
          | Except.error _ => none,
        error := none }

/-- C8: a failing pattern-scan report does not fail the Gold stage: the
stage still reports success with that report recorded as absent and the two
required reports present, whereas a failure of the vin-last-state or
fastest-per-hour report fails the stage whatever the pattern-scan did. -/
theorem pattern_scan_failure_is_best_effort (vp lp e : String) :
    (run_gold_stage (Except.ok vp) (Except.ok lp) (Except.error e)).status = "success" ∧
      (run_gold_stage (Except.ok vp) (Except.ok lp) (Except.error e)).sql_injection_report =
        none ∧
      (run_gold_stage (Except.ok vp) (Except.ok lp) (Except.error e)).vin_last_state =
        some vp ∧
      (run_gold_stage (Except.ok vp) (Except.ok lp) (Except.error e)).velocity_analysis =
        some lp ∧
      (run_gold_stage (Except.ok vp) (Except.ok lp) (Except.error e)).error = none ∧
      (∀ dqR velR : Except String String,
        (run_gold_stage (Except.error e) velR dqR).status = "failed") ∧
      (∀ dqR : Except String String,
        (run_gold_stage (Except.ok vp) (Except.error e) dqR).status = "failed") :=
  ⟨rfl, rfl, rfl, rfl, rfl, fun _ _ => rfl, fun _ => rfl⟩

/-- The iteration trace of the pagination loop of
`APIClient.fetch_vehicle_messages_paged`.  `resp j` is the batch the API
returns to the j-th request of the run, `k` the index of the next request,
`remaining` the remaining count.  Each trace entry records (remaining before
the call, amount requested, batch received).  The loop requests
`min batch_size remaining` (the wrapper has already replaced a non-positive
batch size by 1, hence `max 1 bs`), stops after a batch shorter than
requested, and otherwise subtracts the batch length from `remaining`. -/
def pagedTrace {α : Type} (resp : Nat → List α) (bs k remaining : Nat) :
    List (Nat × Nat × List α) :=
  if _h0 : remaining = 0 then []
  else
    if _h1 : (resp k).length < min (max 1 bs) remaining then
      [(remaining, min (max 1 bs) remaining, resp k)]
    else
      (remaining, min (max 1 bs) remaining, resp k) ::
        pagedTrace resp bs (k + 1) (remaining - (resp k).length)
termination_by remaining
decreasing_by
  omega

/-- `APIClient.fetch_vehicle_messages_paged`: empty for a non-positive total,
otherwise the concatenation of all batches received by the loop. -/
def fetch_vehicle_messages_paged {α : Type} (resp : Nat → List α) (total bs : Nat) :
    List α :=
  if total = 0 then []
  else ((pagedTrace resp bs 0 total).map (fun c => c.2.2)).flatten

/-- A run with something remaining makes at least one request, for the full
remaining count. -/
theorem pagedTrace_cons {α : Type} (resp : Nat → List α) (bs k rem : Nat) (h : rem ≠ 0) :
    ∃ rest, pagedTrace resp bs k rem =
      (rem, min (max 1 bs) rem, resp k) :: rest := by
  rw [pagedTrace, dif_neg h]
  by_cases h1 : (resp k).length < min (max 1 bs) rem
  · rw [dif_pos h1]
    exact ⟨[], rfl⟩
  · rw [dif_neg h1]
    exact ⟨_, rfl⟩

/-- The batches of the trace are the successive API responses, in call
order. -/
theorem pagedTrace_batches {α : Type} (resp : Nat → List α) (bs : Nat) :
    ∀ rem k, (pagedTrace resp bs k rem).map (fun c => c.2.2) =
      (List.range' k (pagedTrace resp bs k rem).length).map resp := by
  intro rem
  induction rem using Nat.strong_induction_on with
  | _ rem ih =>
    intro k
    by_cases h0 : rem = 0
    · subst h0
      rw [pagedTrace, dif_pos rfl]
      rfl
    · by_cases h1 : (resp k).length < min (max 1 bs) rem
      · rw [pagedTrace, dif_neg h0, dif_pos h1]
        rfl
      · rw [pagedTrace, dif_neg h0, dif_neg h1]
        have hlt : rem - (resp k).length < rem := by omega
        rw [List.map_cons, List.length_cons, List.range'_succ, List.map_cons]
        rw [ih _ hlt (k + 1)]

/-- The remaining counts strictly decrease along the trace. -/
theorem pagedTrace_chain {α : Type} (resp : Nat → List α) (bs : Nat) :
    ∀ rem k, List.Chain' (fun c1 c2 => c2.1 < c1.1) (pagedTrace resp bs k rem) := by
  intro rem
  induction rem using Nat.strong_induction_on with
  | _ rem ih =>
    intro k
    by_cases h0 : rem = 0
    · subst h0
      rw [pagedTrace, dif_pos rfl]
      exact List.chain'_nil
    · by_cases h1 : (resp k).length < min (max 1 bs) rem
      · rw [pagedTrace, dif_neg h0, dif_pos h1]
        exact List.chain'_singleton _
      · rw [pagedTrace, dif_neg h0, dif_neg h1]
        have hlt : rem - (resp k).length < rem := by omega
        apply List.chain'_cons'.2
        refine ⟨?_, ih _ hlt (k + 1)⟩
        intro c2 hc2
        by_cases h2 : rem - (resp k).length = 0
        · rw [h2, pagedTrace, dif_pos rfl] at hc2
          exact absurd hc2 (by simp)
        · obtain ⟨rest, hr⟩ := pagedTrace_cons resp bs (k + 1) (rem - (resp k).length) h2
          rw [hr] at hc2
          simp only [List.head?_cons, Option.mem_def, Option.some.injEq] at hc2
          rw [← hc2]
          exact hlt

/-- Every call but the last received at least as many records as it
requested: the loop stops issuing requests right after the first short
response. -/
theorem pagedTrace_no_short_before_last {α : Type} (resp : Nat → List α) (bs : Nat) :
    ∀ rem k, ∀ c ∈ (pagedTrace resp bs k rem).dropLast, c.2.1 ≤ c.2.2.length := by
  intro rem
  induction rem using Nat.strong_induction_on with
  | _ rem ih =>
    intro k c hc
    by_cases h0 : rem = 0
    · subst h0
      rw [pagedTrace, dif_pos rfl] at hc
      exact absurd hc (by simp)
    · by_cases h1 : (resp k).length < min (max 1 bs) rem
      · rw [pagedTrace, dif_neg h0, dif_pos h1] at hc
        exact absurd hc (by simp)
      · rw [pagedTrace, dif_neg h0, dif_neg h1] at hc
        have hlt : rem - (resp k).length < rem := by omega
        cases ht : pagedTrace resp bs (k + 1) (rem - (resp k).length) with
        | nil =>
          rw [ht] at hc
          exact absurd hc (by simp)
        | cons d t2 =>
          rw [ht, List.dropLast_cons₂] at hc
          rcases List.mem_cons.1 hc with hc1 | hc2
          · subst hc1
            exact not_lt.1 h1
          · have := ih _ hlt (k + 1) c
            rw [ht] at this
            exact this hc2

/-- Every request of the trace asks for the minimum of the effective batch
size and the remaining count. -/
theorem pagedTrace_requested {α : Type} (resp : Nat → List α) (bs : Nat) :
    ∀ rem k, ∀ c ∈ pagedTrace resp bs k rem, c.2.1 = min (max 1 bs) c.1 := by
  intro rem
  induction rem using Nat.strong_induction_on with
  | _ rem ih =>
    intro k c hc
    by_cases h0 : rem = 0
    · subst h0
      rw [pagedTrace, dif_pos rfl] at hc
      exact absurd hc (by simp)
    · by_cases h1 : (resp k).length < min (max 1 bs) rem
      · rw [pagedTrace, dif_neg h0, dif_pos h1] at hc
        rw [List.mem_singleton.1 hc]
      · rw [pagedTrace, dif_neg h0, dif_neg h1] at hc
        have hlt : rem - (resp k).length < rem := by omega
        rcases List.mem_cons.1 hc with hc1 | hc2
        · rw [hc1]
        · exact ih _ hlt (k + 1) c hc2

/-- C9: for a positive total, `fetch_vehicle_messages_paged` returns the
concatenation of the batches of its call trace; the batches are the
successive API responses starting from call 0; the remaining counts strictly
decrease across calls; every call except possibly the last received at least
the amount it requested (so the loop stops issuing requests as soon as a
response is short, returning everything aggregated up to and including that
short response); each call requests min(effective batch size, remaining);
and the first call requests against the full total. -/
theorem paged_fetch_stops_on_short_batch {α : Type} (resp : Nat → List α)
    (total bs : Nat) (h : 0 < total) :
    fetch_vehicle_messages_paged resp total bs =
        ((pagedTrace resp bs 0 total).map (fun c => c.2.2)).flatten ∧
      (pagedTrace resp bs 0 total).map (fun c => c.2.2) =
        (List.range' 0 (pagedTrace resp bs 0 total).length).map resp ∧
      List.Chain' (fun c1 c2 => c2.1 < c1.1) (pagedTrace resp bs 0 total) ∧
      (∀ c ∈ (pagedTrace resp bs 0 total).dropLast, c.2.1 ≤ c.2.2.length) ∧
      (∀ c ∈ pagedTrace resp bs 0 total, c.2.1 = min (max 1 bs) c.1) ∧
      (∃ rest, pagedTrace resp bs 0 total =
        (total, min (max 1 bs) total, resp 0) :: rest) := by
  refine ⟨?_, pagedTrace_batches resp bs total 0, pagedTrace_chain resp bs total 0,
    pagedTrace_no_short_before_last resp bs total 0,
    pagedTrace_requested resp bs total 0,
    pagedTrace_cons resp bs 0 total (Nat.pos_iff_ne_zero.1 h)⟩
  rw [fetch_vehicle_messages_paged, if_neg (Nat.pos_iff_ne_zero.1 h)]

/-- Witness for C9 on a concrete short first response: total 1, batch size
1, API always answering with the empty batch. -/
theorem paged_fetch_stops_on_short_batch_witness :
    0 < 1 ∧
      (fetch_vehicle_messages_paged (fun _ => ([] : List Nat)) 1 1 =
          ((pagedTrace (fun _ => ([] : List Nat)) 1 0 1).map (fun c => c.2.2)).flatten ∧
        (pagedTrace (fun _ => ([] : List Nat)) 1 0 1).map (fun c => c.2.2) =
          (List.range' 0 (pagedTrace (fun _ => ([] : List Nat)) 1 0 1).length).map
            (fun _ => ([] : List Nat)) ∧
        List.Chain' (fun c1 c2 => c2.1 < c1.1)
          (pagedTrace (fun _ => ([] : List Nat)) 1 0 1) ∧
        (∀ c ∈ (pagedTrace (fun _ => ([] : List Nat)) 1 0 1).dropLast,
          c.2.1 ≤ c.2.2.length) ∧
        (∀ c ∈ pagedTrace (fun _ => ([] : List Nat)) 1 0 1,
          c.2.1 = min (max 1 1) c.1) ∧
        (∃ rest, pagedTrace (fun _ => ([] : List Nat)) 1 0 1 =
          (1, min (max 1 1) 1, (fun _ => ([] : List Nat)) 0) :: rest)) :=
  ⟨Nat.zero_lt_one,
    paged_fetch_stops_on_short_batch (fun _ => ([] : List Nat)) 1 1 Nat.zero_lt_one⟩

/-- A neutral cleaned record used to build concrete test rows. -/
def baseClean : CleanedRecord :=
  { vin := none
    manufacturer := none
    year := none
    model := none
    latitude := none
    longitude := none
    timestamp := 0
    message_datetime := 0
    velocity := none
    front_left_door_state := none
    wipers_state := none
    gear_position_numeric := none
    gear_position_original := none
    driver_seatbelt_state := none
    fetch_timestamp := ""
    ingestion_timestamp := ""
    batch_id := ""
    partition_date := 0
    partition_hour := 0
    has_valid_coordinates := false
    has_valid_velocity := false
    silver_processing_timestamp := "" }

/-- Scenario row (vin "A", ts 100, door null). -/
def scenarioRow1 : CleanedRecord :=
  { baseClean with vin := some "A", timestamp := 100, message_datetime := 100 }

/-- Scenario row (vin "A", ts 200, door "LOCKED"). -/
def scenarioRow2 : CleanedRecord :=
  { baseClean with
    vin := some "A"
    timestamp := 200
    message_datetime := 200
    front_left_door_state := some "LOCKED" }

/-- Scenario row (vin "A", ts 300, door null). -/
def scenarioRow3 : CleanedRecord :=
  { baseClean with vin := some "A", timestamp := 300, message_datetime := 300 }

/-- The three-row scenario input of the spec. -/
def scenarioRows : List CleanedRecord :=
  [scenarioRow1, scenarioRow2, scenarioRow3]

/-- Witness for C1 at the spec scenario: the report row for vin "A" has
`last_message_datetime` from ts 300 but `last_front_left_door_state`
"LOCKED" resolved from ts 200. -/
theorem door_wipers_independent_resolution_witness :
    ∃ out ∈ generate_vin_last_state_report "t" scenarioRows,
      out.vin = "A" ∧
      out.last_message_datetime = 300 ∧
      out.last_reported_timestamp = 300 ∧
      out.last_front_left_door_state = some "LOCKED" ∧
      (∀ (w : CleanedRecord) (ww : Bool), w ∈ scenarioRows → w.vin = some "A" →
        w.wipers_state = some ww →
        (∀ r ∈ scenarioRows, r.vin = some "A" → r.wipers_state.isSome = true →
          r = w ∨ r.message_datetime < w.message_datetime) →
        out.last_wipers_state = some ww) :=
  door_wipers_independent_resolution "t" scenarioRows "A" "LOCKED" scenarioRow3 scenarioRow2
    (by decide) (by decide) (by decide) (by decide) (by decide) (by decide) (by decide)

/-- A neutral raw record used to build concrete test rows. -/
def baseRaw : RawRecord :=
  { vin := none
    manufacturer := none
    year := none
    model := none
    latitude := none
    longitude := none
    timestamp := 0
    message_datetime := 0
    velocity := none
    front_left_door_state := none
    wipers_state := none
    gear_position := none
    driver_seatbelt_state := none
    fetch_timestamp := ""
    ingestion_timestamp := ""
    batch_id := ""
    partition_date := 0
    partition_hour := 0 }

/-- Concrete Bronze input holding a good vin, a null vin and a blank vin. -/
def rawsEx : List RawRecord :=
  [{ baseRaw with vin := some "A", message_datetime := 100 },
    baseRaw,
    { baseRaw with vin := some " ", message_datetime := 200 }]

/-- Witness for C3 at a concrete input with a null-vin and a blank-vin row. -/
theorem silver_vin_invariant_witness :
    (∀ r ∈ silverRows "t" rawsEx, ∃ v, r.vin = some v ∧ v.trim ≠ "") ∧
      (silverRows "t" rawsEx).length = (rawsEx.filter (fun r => goodVin r.vin)).length :=
  silver_vin_invariant "t" rawsEx (silverRows "t" rawsEx) rfl
